/-
  Verification of the sknano crystallography / vector-algebra core.

  Shallow embedding of `sknano.core.math._vector`,
  `sknano.core.crystallography._base`, `sknano.core.crystallography.xtal_cells`,
  `sknano.core.atoms._atoms` and `sknano.core.atoms.cn_atoms`.

  Numeric state is modelled over `ℚ` (exact arithmetic) where the Python code
  works with numpy double arrays, and over `ℝ` where the code evaluates
  transcendental functions (cos, sin, arccos, sqrt).
-/
import Mathlib

namespace VectorModel

/-- State of a `sknano.core.math.Vector`: the raw component array (the ndarray
payload) together with the anchor point `p0` (`Vector._p0`) and the head point
`p` (`Vector._p`).  Everything the invariant claims quantify over. -/
structure VectorState (n : ℕ) where
  comps : Fin n → ℚ
  p0 : Fin n → ℚ
  p : Fin n → ℚ

/-- The identity the spec calls the core invariant: `components == p - p0`,
componentwise.  Exact arithmetic, so "within floating tolerance" becomes
equality. -/
def invariant {n : ℕ} (v : VectorState n) : Prop :=
  ∀ i, v.comps i = v.p i - v.p0 i

instance {n : ℕ} (v : VectorState n) : Decidable (invariant v) :=
  inferInstanceAs (Decidable (∀ _i, _ = _))

/-- Embeds `Vector._update_p` (line 547-548): `self._p[:] = self._p0[:] +
self.__array__()`. -/
def updateP {n : ℕ} (v : VectorState n) : VectorState n :=
  { v with p := fun i => v.p0 i + v.comps i }

/-- Embeds `Vector.__iadd__` with a vector operand: ndarray in-place add of the
components followed by `_update_p`. -/
def iaddV {n : ℕ} (v : VectorState n) (w : Fin n → ℚ) : VectorState n :=
  updateP { v with comps := fun i => v.comps i + w i }

/-- Embeds `Vector.__iadd__` with a scalar operand (numpy broadcasts the scalar
over all components), followed by `_update_p`. -/
def iaddS {n : ℕ} (v : VectorState n) (q : ℚ) : VectorState n :=
  updateP { v with comps := fun i => v.comps i + q }

/-- Embeds `Vector.__isub__` with a vector operand. -/
def isubV {n : ℕ} (v : VectorState n) (w : Fin n → ℚ) : VectorState n :=
  updateP { v with comps := fun i => v.comps i - w i }

/-- Embeds `Vector.__isub__` with a scalar operand. -/
def isubS {n : ℕ} (v : VectorState n) (q : ℚ) : VectorState n :=
  updateP { v with comps := fun i => v.comps i - q }

/-- Embeds `Vector.__imul__` with a scalar operand (`isinstance(other,
numbers.Number)` branch): in-place multiply then `_update_p`. -/
def imulS {n : ℕ} (v : VectorState n) (q : ℚ) : VectorState n :=
  updateP { v with comps := fun i => v.comps i * q }

/-- Embeds the `Vector.p` property setter (lines 582-586): `self._p[:] = value;
self[:] = self._p - self._p0`. -/
def setP {n : ℕ} (v : VectorState n) (val : Fin n → ℚ) : VectorState n :=
  { v with p := val, comps := fun i => val i - v.p0 i }

/-- Embeds the `Vector.p0` property setter (lines 593-597): `self._p0[:] =
value; self[:] = self._p - self._p0`. -/
def setP0 {n : ℕ} (v : VectorState n) (val : Fin n → ℚ) : VectorState n :=
  { v with p0 := val, comps := fun i => v.p i - val i }

/-- Embeds the `Vector.__setattr__` branch for the named components `x`, `y`,
`z` (lines 332-363): `self[i] = value` and `self._p[i] = self._p0[i] + value`.
The component index generalizes x/y/z to any coordinate. -/
def setComp {n : ℕ} (v : VectorState n) (i : Fin n) (q : ℚ) : VectorState n :=
  { v with comps := Function.update v.comps i q,
           p := Function.update v.p i (v.p0 i + q) }

/-- Embeds `Vector.translate` (lines 701-712): `self.p += t` (through the `p`
setter, which re-derives the components) and, unless `fix_anchor_point`,
`self.p0 += t` (through the `p0` setter). -/
def translate {n : ℕ} (v : VectorState n) (t : Fin n → ℚ)
    (fixAnchorPoint : Bool) : VectorState n :=
  let v1 := setP v (fun i => v.p i + t i)
  if fixAnchorPoint then v1 else setP0 v1 (fun i => v1.p0 i + t i)

/-- Embeds `Vector.rotate` (lines 695-696): the transform derived from the
rotation arguments is an arbitrary map on points; the code assigns
`self.p0 = rotate(self.p0, T)` and `self.p = rotate(self.p, T)` through the
two property setters, each of which re-derives the components. -/
def rotateWith {n : ℕ} (v : VectorState n)
    (f : (Fin n → ℚ) → Fin n → ℚ) : VectorState n :=
  let v1 := setP0 v (f v.p0)
  setP v1 (f v.p)

/-- One mutating operation from the claim: `translate`, `rotate`, in-place
scalar arithmetic, direct component assignment, direct head/anchor
assignment. -/
inductive Mutation (n : ℕ) where
  | translate (t : Fin n → ℚ) (fixAnchorPoint : Bool)
  | rotate (f : (Fin n → ℚ) → Fin n → ℚ)
  | iaddV (w : Fin n → ℚ)
  | iaddS (q : ℚ)
  | isubV (w : Fin n → ℚ)
  | isubS (q : ℚ)
  | imulS (q : ℚ)
  | setComp (i : Fin n) (q : ℚ)
  | setP (val : Fin n → ℚ)
  | setP0 (val : Fin n → ℚ)

/-- Dispatch a mutation to the corresponding embedded operation. -/
def applyMut {n : ℕ} (v : VectorState n) : Mutation n → VectorState n
  | .translate t fix => translate v t fix
  | .rotate f => rotateWith v f
  | .iaddV w => iaddV v w
  | .iaddS q => iaddS v q
  | .isubV w => isubV v w
  | .isubS q => isubS v q
  | .imulS q => imulS v q
  | .setComp i q => setComp v i q
  | .setP val => setP v val
  | .setP0 val => setP0 v val

theorem invariant_updateP {n : ℕ} (v : VectorState n) :
    invariant (updateP v) := by
  intro i; simp [updateP]

theorem invariant_setP {n : ℕ} (v : VectorState n) (val : Fin n → ℚ) :
    invariant (setP v val) := by
  intro i; simp [setP]

theorem invariant_setP0 {n : ℕ} (v : VectorState n) (val : Fin n → ℚ) :
    invariant (setP0 v val) := by
  intro i; simp [setP0]

theorem invariant_applyMut {n : ℕ} (v : VectorState n) (m : Mutation n)
    (h : invariant v) : invariant (applyMut v m) := by
  cases m with
  | translate t fix =>
      simp only [applyMut, translate]
      cases fix
      · simp only [Bool.false_eq_true, if_false]
        exact invariant_setP0 _ _
      · simp only [if_true]
        exact invariant_setP _ _
  | rotate f => exact invariant_setP _ _
  | iaddV w => exact invariant_updateP _
  | iaddS q => exact invariant_updateP _
  | isubV w => exact invariant_updateP _
  | isubS q => exact invariant_updateP _
  | imulS q => exact invariant_updateP _
  | setComp i q =>
      intro j
      by_cases hj : j = i
      · subst hj
        simp [applyMut, setComp]
      · simp [applyMut, setComp, Function.update_noteq hj, h j]
  | setP val => exact invariant_setP _ _
  | setP0 val => exact invariant_setP0 _ _

theorem invariant_foldl {n : ℕ} (l : List (Mutation n)) (v : VectorState n)
    (h : invariant v) : invariant (l.foldl applyMut v) := by
  induction l generalizing v with
  | nil => exact h
  | cons m l ih => exact ih _ (invariant_applyMut v m h)

/-- C1: for every `Vector` v satisfying the head/anchor/components identity
(every freshly constructed `Vector` does, by `Vector.__new__`) and every
sequence of mutating operations (`translate`, `rotate`, in-place scalar
arithmetic `+=`/`-=`/`*=`, direct assignment to a component, direct assignment
to the head point `p` or the anchor point `p0`), the identity
`v.p - v.p0 == components of v` holds after every mutation, i.e. after every
prefix of the sequence. -/
theorem vector_invariant_preserved {n : ℕ} (v : VectorState n)
    (h : invariant v) (muts : List (Mutation n)) (k : ℕ) :
    invariant ((muts.take k).foldl applyMut v) :=
  invariant_foldl _ _ h

/-- Witness for C1: a concrete 3-vector and a concrete mutation sequence. -/
theorem vector_invariant_preserved_witness :
    invariant (VectorState.mk ![3, 4, 0] ![1, 1, 1] ![4, 5, 1]) ∧
      invariant ((([Mutation.translate ![1, 0, 0] true,
                    Mutation.setComp 0 7,
                    Mutation.imulS 2,
                    Mutation.setP0 ![0, 0, 0]]).take 4).foldl applyMut
        (VectorState.mk ![3, 4, 0] ![1, 1, 1] ![4, 5, 1])) :=
  ⟨by intro i; fin_cases i <;> norm_num,
   vector_invariant_preserved (VectorState.mk ![3, 4, 0] ![1, 1, 1] ![4, 5, 1])
     (by intro i; fin_cases i <;> norm_num)
     [Mutation.translate ![1, 0, 0] true, Mutation.setComp 0 7,
      Mutation.imulS 2, Mutation.setP0 ![0, 0, 0]] 4⟩

/-! ### Binary operations of `Vector` and their error behaviour (C5) -/

/-- A Python error raised by a vector operation.  `valueError` covers both the
explicit `ValueError` of `_check_vector_compatibility` and numpy's broadcast
`ValueError`. -/
inductive PyError where
  | valueError
deriving DecidableEq

/-- The right operand of a `Vector` binary operation: a number, another
`Vector` (its raw component array), or any other (non-numeric, non-`Vector`)
object. -/
inductive Operand where
  | num (q : ℚ)
  | vec (w : List ℚ)
  | other

/-- Outcome of a `Vector` binary operation: a vector result (with a flag
recording whether a `UserWarning` was emitted on the way), a scalar result, or
a raised error. -/
inductive OpResult where
  | vecR (comps : List ℚ) (warned : Bool)
  | scalarR (q : ℚ)
  | raised (e : PyError)
deriving DecidableEq

/-- `numpy` dot product of two equal-length 1-d arrays. -/
def dotL (u v : List ℚ) : ℚ := (List.zipWith (· * ·) u v).sum

/-- Embeds `Vector.__mul__` (lines 395-408): a `numbers.Number` operand gives
an elementwise product (`other * self.__array__()`); a `Vector` operand is
routed to `Vector.dot` (lines 633-636), whose
`_check_vector_compatibility` raises `ValueError` on a length mismatch and
which otherwise returns the scalar dot product; any other operand emits a
`UserWarning` and returns `self` unchanged. -/
def vmul (v : List ℚ) : Operand → OpResult
  | .num q => .vecR (v.map (fun x => q * x)) false
  | .vec w =>
      if v.length = w.length then .scalarR (dotL v w)
      else .raised .valueError
  | .other => .vecR v true

/-- `Vector` defines no `__add__`/`__sub__`, so `+` and `-` fall through to
the `numpy.ndarray` elementwise operation with 1-d broadcasting: equal lengths
combine elementwise, a length-1 operand is broadcast, and any other length
mismatch raises `ValueError`. -/
def ndarrayZip (f : ℚ → ℚ → ℚ) (u v : List ℚ) : OpResult :=
  if u.length = v.length then .vecR (List.zipWith f u v) false
  else if v.length = 1 then .vecR (u.map (fun x => f x v.headI)) false
  else if u.length = 1 then .vecR (v.map (fun y => f u.headI y)) false
  else .raised .valueError

/-- `Vector.__add__` via `numpy.ndarray`. -/
def vadd (u v : List ℚ) : OpResult := ndarrayZip (· + ·) u v

/-- `Vector.__sub__` via `numpy.ndarray`. -/
def vsub (u v : List ℚ) : OpResult := ndarrayZip (· - ·) u v

/-- Counterexample to C5: `Vector([1,2,3]) * Vector([1,2,3,4])` does raise.
The `Vector`-operand branch of `__mul__` calls `Vector.dot`, whose
compatibility check raises `ValueError` for mismatched lengths; the
warn-and-return-self path is never reached for a `Vector` operand. -/
theorem mul_mismatched_vectors_raises :
    vmul [1, 2, 3] (Operand.vec [1, 2, 3, 4]) = OpResult.raised PyError.valueError := by
  simp [vmul]

/-- C5 (amended): multiplying two `Vector`s of different lengths raises a
`ValueError` (it is not routed to the warn-and-return path); `+` and `-` on
two `Vector`s of different lengths raise a `ValueError` unless one operand has
length 1 (numpy broadcasting); multiplying a `Vector` by a non-numeric,
non-`Vector` object emits a warning and returns the left operand unchanged,
never raising. -/
theorem mul_add_sub_error_behaviour (v w : List ℚ) (hlen : v.length ≠ w.length)
    (hv : v.length ≠ 1) (hw : w.length ≠ 1) :
    vmul v (Operand.vec w) = OpResult.raised PyError.valueError ∧
    vadd v w = OpResult.raised PyError.valueError ∧
    vsub v w = OpResult.raised PyError.valueError ∧
    vmul v Operand.other = OpResult.vecR v true := by
  refine ⟨?_, ?_, ?_, rfl⟩
  · simp [vmul, hlen]
  · simp [vadd, ndarrayZip, hlen, hv, hw]
  · simp [vsub, ndarrayZip, hlen, hv, hw]

/-- Witness for C5 (amended) at `[1,2,3]` and `[1,2,3,4]`. -/
theorem mul_add_sub_error_behaviour_witness :
    vmul [1, 2, 3] (Operand.vec [1, 2, 3, 4]) = OpResult.raised PyError.valueError ∧
    vadd [1, 2, 3] [1, 2, 3, 4] = OpResult.raised PyError.valueError ∧
    vsub [1, 2, 3] [1, 2, 3, 4] = OpResult.raised PyError.valueError ∧
    vmul [1, 2, 3] Operand.other = OpResult.vecR [1, 2, 3] true :=
  mul_add_sub_error_behaviour [1, 2, 3] [1, 2, 3, 4]
    (by decide) (by decide) (by decide)

/-! ### `Vector.__eq__` (C9) -/

/-- `numpy.allclose` elementwise test with its default tolerances
`rtol=1e-5`, `atol=1e-8`: `|a - b| <= atol + rtol * |b|`. -/
def isCloseQ (a b : ℚ) : Prop := |a - b| ≤ 1e-8 + 1e-5 * |b|

instance (a b : ℚ) : Decidable (isCloseQ a b) := by
  unfold isCloseQ; infer_instance

/-- `numpy.allclose` on component arrays. -/
def allCloseV {n : ℕ} (u v : Fin n → ℚ) : Prop := ∀ i, isCloseQ (u i) (v i)

/-- Embeds `Vector.__eq__` (lines 372-378): `self is other or
(np.allclose(self, other) and np.allclose(self.p0, other.p0) and
np.allclose(self.p, other.p))`.  Object identity `self is other` is modelled
by state equality, the strongest value-level consequence of identity. -/
def veq {n : ℕ} (u v : VectorState n) : Prop :=
  u = v ∨
    (allCloseV u.comps v.comps ∧ allCloseV u.p0 v.p0 ∧ allCloseV u.p v.p)

theorem isCloseQ_refl (a : ℚ) : isCloseQ a a := by
  unfold isCloseQ
  have h : |a - a| = 0 := by simp
  rw [h]
  positivity

/-- C9: `Vector` equality is anchor-sensitive: `u == v` holds iff `u is v` or
the components, the anchor points `p0` and the head points `p` are all
componentwise close; in particular two vectors with identical components whose
anchor points are not all close compare unequal. -/
theorem veq_characterisation {n : ℕ} (u v : VectorState n) :
    (veq u v ↔
      allCloseV u.comps v.comps ∧ allCloseV u.p0 v.p0 ∧ allCloseV u.p v.p) ∧
    (u.comps = v.comps → ¬ allCloseV u.p0 v.p0 → ¬ veq u v) := by
  constructor
  · constructor
    · rintro (rfl | h)
      · exact ⟨fun i => isCloseQ_refl _, fun i => isCloseQ_refl _,
          fun i => isCloseQ_refl _⟩
      · exact h
    · exact Or.inr
  · intro _hc hp0 hv
    rcases hv with rfl | h
    · exact hp0 (fun i => isCloseQ_refl _)
    · exact hp0 h.2.1

/-- Witness for C9: two vectors with the same components `[1,2,3]` but anchors
`(0,0,0)` and `(5,0,0)` compare unequal. -/
theorem veq_characterisation_witness :
    ¬ veq (VectorState.mk ![1, 2, 3] ![0, 0, 0] ![1, 2, 3])
      (VectorState.mk ![1, 2, 3] ![5, 0, 0] ![6, 2, 3]) :=
  (veq_characterisation _ _).2 rfl
    (by
      intro h
      have h0 := h 0
      norm_num [isCloseQ] at h0)

/-! ### `Vector.angle` and the module-level `angle` (C7) -/

/-- Sum-form dot product of the raw component arrays. -/
def dotF {n : ℕ} (u v : Fin n → ℚ) : ℚ := ∑ i, u i * v i

/-- Result of `Vector.angle`: a raised `ValueError` from
`_check_vector_compatibility`, a NaN accompanied by a runtime warning (the
module sets `np.seterr(all='warn')`, so invalid floating operations warn and
propagate nan instead of raising), or a real angle value. -/
inductive AngleResult where
  | raisedDimMismatch
  | nanWithWarning
  | value (θ : ℝ)

/-- The equal-dimension core of `Vector.angle`:
`np.arccos(np.dot(u, v) / (u.norm * v.norm))`.
A zero norm makes the division non-finite (warning + nan) and an argument
outside `[-1, 1]` makes `np.arccos` return nan (warning); in exact arithmetic
the argument lies outside `[-1, 1]` iff `dot(u,v)² > (u·u)(v·v)`, which is the
rational test used for that branch. -/
noncomputable def vangleSame {n : ℕ} (u v : Fin n → ℚ) : AngleResult :=
  if dotF u u = 0 ∨ dotF v v = 0 then .nanWithWarning
  else if (dotF u v) ^ 2 ≤ dotF u u * dotF v v then
    .value (Real.arccos ((dotF u v : ℝ) /
      (Real.sqrt ((dotF u u : ℚ) : ℝ) * Real.sqrt ((dotF v v : ℚ) : ℝ))))
  else .nanWithWarning

/-- Embeds `Vector.angle` (lines 619-623): `_check_vector_compatibility`
raises `ValueError` when the operands have different numbers of components,
otherwise the arccos formula above is evaluated. -/
noncomputable def vangle {n m : ℕ} (u : Fin n → ℚ) (v : Fin m → ℚ) :
    AngleResult :=
  if h : m = n then vangleSame u (fun i => v (Fin.cast h.symm i))
  else .raisedDimMismatch

theorem vangle_eq_vangleSame {n : ℕ} (u v : Fin n → ℚ) :
    vangle u v = vangleSame u v := by
  unfold vangle
  rw [dif_pos rfl]
  rfl

/-- Counterexample to C7: `angle` on a zero-length vector does not raise; it
warns and returns NaN (`np.seterr(all='warn')` makes the zero-norm division a
warning, not an error). -/
theorem angle_zero_vector_is_nan :
    vangle (![0, 0, 0] : Fin 3 → ℚ) (![1, 0, 0] : Fin 3 → ℚ) =
      AngleResult.nanWithWarning := by
  rw [vangle_eq_vangleSame]
  have hz : dotF (![0, 0, 0] : Fin 3 → ℚ) ![0, 0, 0] = 0 := by
    norm_num [dotF, Fin.sum_univ_three]
  simp [vangleSame, hz]

/-- Cauchy-Schwarz for the rational dot product. -/
theorem dotF_sq_le {n : ℕ} (u v : Fin n → ℚ) :
    (dotF u v) ^ 2 ≤ dotF u u * dotF v v := by
  simpa [dotF, sq] using
    Finset.sum_mul_sq_le_sq_mul_sq Finset.univ u v

/-- C7 (amended): for equal-dimension vectors of nonzero length, `angle(u,v)`
returns the single value `arccos(dot(u,v)/(|u||v|))`, which lies in `[0, π]`;
when either input has zero length the call emits a runtime warning and
returns NaN rather than raising. -/
theorem angle_value_in_range {n : ℕ} (u v : Fin n → ℚ)
    (hu : dotF u u ≠ 0) (hv : dotF v v ≠ 0) :
    (∃ θ : ℝ, vangle u v = AngleResult.value θ ∧
      θ = Real.arccos ((dotF u v : ℝ) /
        (Real.sqrt ((dotF u u : ℚ) : ℝ) * Real.sqrt ((dotF v v : ℚ) : ℝ))) ∧
      0 ≤ θ ∧ θ ≤ Real.pi) ∧
    (∀ w : Fin n → ℚ, dotF w w = 0 →
      vangle w v = AngleResult.nanWithWarning) := by
  constructor
  · refine ⟨_, ?_, rfl, Real.arccos_nonneg _, Real.arccos_le_pi _⟩
    have hcs := dotF_sq_le u v
    rw [vangle_eq_vangleSame]
    unfold vangleSame
    rw [if_neg (by push_neg; exact ⟨hu, hv⟩), if_pos hcs]
  · intro w hw
    rw [vangle_eq_vangleSame]
    simp [vangleSame, hw]

/-- Witness for C7 (amended) at `u = (1,0,0)`, `v = (0,1,0)`. -/
theorem angle_value_in_range_witness :
    (∃ θ : ℝ,
      vangle (![1, 0, 0] : Fin 3 → ℚ) (![0, 1, 0] : Fin 3 → ℚ) =
        AngleResult.value θ ∧
      θ = Real.arccos ((dotF (![1, 0, 0] : Fin 3 → ℚ) ![0, 1, 0] : ℝ) /
        (Real.sqrt ((dotF (![1, 0, 0] : Fin 3 → ℚ) ![1, 0, 0] : ℚ) : ℝ) *
         Real.sqrt ((dotF (![0, 1, 0] : Fin 3 → ℚ) ![0, 1, 0] : ℚ) : ℝ))) ∧
      0 ≤ θ ∧ θ ≤ Real.pi) ∧
    (∀ w : Fin 3 → ℚ, dotF w w = 0 →
      vangle w (![0, 1, 0] : Fin 3 → ℚ) = AngleResult.nanWithWarning) :=
  angle_value_in_range ![1, 0, 0] ![0, 1, 0]
    (by norm_num [dotF, Fin.sum_univ_three])
    (by norm_num [dotF, Fin.sum_univ_three])

end VectorModel

namespace LatticeModel

/-- The rounding `np.around(x, decimals=6)` used by the lattice angle and trig
properties.  `np.around` rounds halves to even while `round` rounds halves up;
every value this development rounds is an exact integer multiple of `10⁻⁶`, on
which the two conventions agree. -/
noncomputable def round6 (x : ℝ) : ℝ := (round (x * 10 ^ 6) : ℤ) / 10 ^ 6

/-- The rounding `np.around(x, decimals=10)` applied entrywise to the ortho
matrix. -/
noncomputable def round10 (x : ℝ) : ℝ := (round (x * 10 ^ 10) : ℤ) / 10 ^ 10

/-- `np.radians`. -/
noncomputable def radians (x : ℝ) : ℝ := x * Real.pi / 180

/-- State of `sknano.core.crystallography._base.CrystalLattice` after
`__init__` from six scalar parameters: the lengths are stored as plain
attributes, the angles as `_alpha`/`_beta`/`_gamma` behind rounding
properties; `offset` starts at the zero vector and `orientation_matrix` at
the identity. -/
structure CrystalLattice where
  a : ℝ
  b : ℝ
  c : ℝ
  alphaRaw : ℝ
  betaRaw : ℝ
  gammaRaw : ℝ
  orientation_matrix : Matrix (Fin 3) (Fin 3) ℝ := 1
  offset : Fin 3 → ℝ := 0

namespace CrystalLattice

/-- `CrystalLattice.alpha` (lines 130-134): `np.around(self._alpha, 6)`. -/
noncomputable def alpha (L : CrystalLattice) : ℝ := round6 L.alphaRaw

/-- `CrystalLattice.beta`. -/
noncomputable def beta (L : CrystalLattice) : ℝ := round6 L.betaRaw

/-- `CrystalLattice.gamma`. -/
noncomputable def gamma (L : CrystalLattice) : ℝ := round6 L.gammaRaw

/-- `CrystalLattice.cos_alpha` (lines 160-162). -/
noncomputable def cos_alpha (L : CrystalLattice) : ℝ :=
  round6 (Real.cos (radians L.alpha))

/-- `CrystalLattice.cos_beta`. -/
noncomputable def cos_beta (L : CrystalLattice) : ℝ :=
  round6 (Real.cos (radians L.beta))

/-- `CrystalLattice.cos_gamma`. -/
noncomputable def cos_gamma (L : CrystalLattice) : ℝ :=
  round6 (Real.cos (radians L.gamma))

/-- `CrystalLattice.sin_alpha` (lines 172-174). -/
noncomputable def sin_alpha (L : CrystalLattice) : ℝ :=
  round6 (Real.sin (radians L.alpha))

/-- `CrystalLattice.sin_beta`. -/
noncomputable def sin_beta (L : CrystalLattice) : ℝ :=
  round6 (Real.sin (radians L.beta))

/-- `CrystalLattice.sin_gamma`. -/
noncomputable def sin_gamma (L : CrystalLattice) : ℝ :=
  round6 (Real.sin (radians L.gamma))

/-- `CrystalLattice.cos_gamma_star` (lines 194-197). -/
noncomputable def cos_gamma_star (L : CrystalLattice) : ℝ :=
  round6 ((L.cos_alpha * L.cos_beta - L.cos_gamma) /
    (L.sin_alpha * L.sin_beta))

/-- `CrystalLattice.sin_gamma_star` (lines 207-209): no rounding here. -/
noncomputable def sin_gamma_star (L : CrystalLattice) : ℝ :=
  Real.sqrt (1 - L.cos_gamma_star ^ 2)

/-- `CrystalLattice.ortho_matrix` (lines 277-292): the triclinic
upper-triangular matrix, rounded entrywise to 10 decimals. -/
noncomputable def ortho_matrix (L : CrystalLattice) :
    Matrix (Fin 3) (Fin 3) ℝ :=
  (Matrix.of
    ![![L.a, L.b * L.cos_gamma, L.c * L.cos_beta],
      ![0, L.b * L.sin_gamma,
        L.c * (L.cos_alpha - L.cos_beta * L.cos_gamma) / L.sin_gamma],
      ![0, 0,
        L.c * L.sin_alpha * L.sin_beta * L.sin_gamma_star /
          L.sin_gamma]]).map round10

/-- `CrystalLattice.cell_volume` (lines 298-303). -/
noncomputable def cell_volume (L : CrystalLattice) : ℝ :=
  L.a * L.b * L.c *
    Real.sqrt (1 - L.cos_alpha ^ 2 - L.cos_beta ^ 2 - L.cos_gamma ^ 2 +
      2 * L.cos_alpha * L.cos_beta * L.cos_gamma)

/-- `CrystalLattice.fractional_to_cartesian` (lines 239-241):
`orientation_matrix * ortho_matrix * v + offset`. -/
noncomputable def fractional_to_cartesian (L : CrystalLattice)
    (v : Fin 3 → ℝ) : Fin 3 → ℝ :=
  L.orientation_matrix.mulVec (L.ortho_matrix.mulVec v) + L.offset

/-- `CrystalLattice.cartesian_to_fractional` (lines 243-244): the method body
is `pass`, so the call returns `None` for every input. -/
def cartesian_to_fractional (_L : CrystalLattice) (_v : Fin 3 → ℝ) :
    Option (Fin 3 → ℝ) :=
  none

end CrystalLattice

/-- The concrete orthorhombic lattice of the C8 scenario:
`a=2.46, b=4.26, c=10.0, alpha=beta=gamma=90`. -/
noncomputable def orthorhombicLattice : CrystalLattice :=
  { a := 2.46, b := 4.26, c := 10, alphaRaw := 90, betaRaw := 90,
    gammaRaw := 90 }

theorem round6_of_mul_eq_int (x : ℝ) (n : ℤ) (h : x * 10 ^ 6 = (n : ℝ)) :
    round6 x = (n : ℝ) / 10 ^ 6 := by
  unfold round6
  rw [h, round_intCast]

theorem round10_of_mul_eq_int (x : ℝ) (n : ℤ) (h : x * 10 ^ 10 = (n : ℝ)) :
    round10 x = (n : ℝ) / 10 ^ 10 := by
  unfold round10
  rw [h, round_intCast]

theorem round6_ninety : round6 (90 : ℝ) = 90 := by
  rw [round6_of_mul_eq_int (90 : ℝ) 90000000 (by norm_num)]
  norm_num

theorem round6_zero : round6 (0 : ℝ) = 0 := by
  rw [round6_of_mul_eq_int (0 : ℝ) 0 (by norm_num)]
  norm_num

theorem round6_one : round6 (1 : ℝ) = 1 := by
  rw [round6_of_mul_eq_int (1 : ℝ) 1000000 (by norm_num)]
  norm_num

theorem cos_radians_ninety : Real.cos (radians 90) = 0 := by
  have h : radians 90 = Real.pi / 2 := by unfold radians; ring
  rw [h, Real.cos_pi_div_two]

theorem sin_radians_ninety : Real.sin (radians 90) = 1 := by
  have h : radians 90 = Real.pi / 2 := by unfold radians; ring
  rw [h, Real.sin_pi_div_two]

theorem ortho_cos_alpha : orthorhombicLattice.cos_alpha = 0 := by
  unfold CrystalLattice.cos_alpha CrystalLattice.alpha
  show round6 (Real.cos (radians (round6 90))) = 0
  rw [round6_ninety, cos_radians_ninety, round6_zero]

theorem ortho_cos_beta : orthorhombicLattice.cos_beta = 0 := by
  unfold CrystalLattice.cos_beta CrystalLattice.beta
  show round6 (Real.cos (radians (round6 90))) = 0
  rw [round6_ninety, cos_radians_ninety, round6_zero]

theorem ortho_cos_gamma : orthorhombicLattice.cos_gamma = 0 := by
  unfold CrystalLattice.cos_gamma CrystalLattice.gamma
  show round6 (Real.cos (radians (round6 90))) = 0
  rw [round6_ninety, cos_radians_ninety, round6_zero]

theorem ortho_sin_alpha : orthorhombicLattice.sin_alpha = 1 := by
  unfold CrystalLattice.sin_alpha CrystalLattice.alpha
  show round6 (Real.sin (radians (round6 90))) = 1
  rw [round6_ninety, sin_radians_ninety, round6_one]

theorem ortho_sin_beta : orthorhombicLattice.sin_beta = 1 := by
  unfold CrystalLattice.sin_beta CrystalLattice.beta
  show round6 (Real.sin (radians (round6 90))) = 1
  rw [round6_ninety, sin_radians_ninety, round6_one]

theorem ortho_sin_gamma : orthorhombicLattice.sin_gamma = 1 := by
  unfold CrystalLattice.sin_gamma CrystalLattice.gamma
  show round6 (Real.sin (radians (round6 90))) = 1
  rw [round6_ninety, sin_radians_ninety, round6_one]

theorem round10_zero : round10 (0 : ℝ) = 0 := by
  rw [round10_of_mul_eq_int (0 : ℝ) 0 (by norm_num)]
  norm_num

theorem round10_246 : round10 ((123 : ℝ) / 50) = 123 / 50 := by
  rw [round10_of_mul_eq_int ((123 : ℝ) / 50) 24600000000 (by norm_num)]
  norm_num

theorem round10_426 : round10 ((213 : ℝ) / 50) = 213 / 50 := by
  rw [round10_of_mul_eq_int ((213 : ℝ) / 50) 42600000000 (by norm_num)]
  norm_num

theorem round10_ten : round10 (10 : ℝ) = 10 := by
  rw [round10_of_mul_eq_int (10 : ℝ) 100000000000 (by norm_num)]
  norm_num

theorem ortho_sin_gamma_star : orthorhombicLattice.sin_gamma_star = 1 := by
  unfold CrystalLattice.sin_gamma_star CrystalLattice.cos_gamma_star
  rw [ortho_cos_alpha, ortho_cos_beta, ortho_cos_gamma, ortho_sin_alpha,
    ortho_sin_beta]
  norm_num [round6_zero, Real.sqrt_one]

/-- C8: for the orthorhombic lattice `a=2.46, b=4.26, c=10, angles 90°` the
rounded cosine terms all vanish exactly, `cell_volume` equals
`2.46 * 4.26 * 10.0` exactly, and `ortho_matrix` is exactly the diagonal
matrix `[[2.46,0,0],[0,4.26,0],[0,0,10.0]]` after its 10-decimal rounding. -/
theorem orthorhombic_volume_and_ortho_matrix :
    orthorhombicLattice.cos_alpha = 0 ∧
    orthorhombicLattice.cos_beta = 0 ∧
    orthorhombicLattice.cos_gamma = 0 ∧
    orthorhombicLattice.cell_volume = 2.46 * 4.26 * 10 ∧
    orthorhombicLattice.ortho_matrix =
      Matrix.of ![![2.46, 0, 0], ![0, 4.26, 0], ![0, 0, 10]] := by
  refine ⟨ortho_cos_alpha, ortho_cos_beta, ortho_cos_gamma, ?_, ?_⟩
  · unfold CrystalLattice.cell_volume
    rw [ortho_cos_alpha, ortho_cos_beta, ortho_cos_gamma]
    norm_num [Real.sqrt_one]
    norm_num [orthorhombicLattice]
  · unfold CrystalLattice.ortho_matrix
    ext i j
    fin_cases i <;> fin_cases j <;>
      simp only [Matrix.map_apply, Matrix.of_apply, Matrix.cons_val',
        Matrix.cons_val_zero, Matrix.cons_val_one, Matrix.head_cons,
        Matrix.empty_val', Matrix.cons_val_fin_one, Matrix.head_fin_const,
        Matrix.cons_val_two, Matrix.tail_cons] <;>
      simp only [ortho_cos_alpha, ortho_cos_beta, ortho_cos_gamma,
        ortho_sin_alpha, ortho_sin_beta, ortho_sin_gamma,
        ortho_sin_gamma_star,
        show orthorhombicLattice.a = 2.46 from rfl,
        show orthorhombicLattice.b = 4.26 from rfl,
        show orthorhombicLattice.c = 10 from rfl] <;>
      norm_num [round10_zero, round10_246, round10_426, round10_ten]

/-- C2 (code bug): `cartesian_to_fractional` in
`crystallography/_base.py` has body `pass` and returns `None` for every
input, so the round trip
`fractional_to_cartesian(cartesian_to_fractional(p))` is undefined (it raises
when the `None` is consumed) instead of returning `p`. -/
theorem roundtrip_is_undefined :
    (orthorhombicLattice.cartesian_to_fractional ![1, 2, 3]).map
      orthorhombicLattice.fractional_to_cartesian = none ∧
    ∀ p : Fin 3 → ℝ,
      orthorhombicLattice.cartesian_to_fractional p = none :=
  ⟨rfl, fun _ => rfl⟩

end LatticeModel

namespace CellModel

/-- 3-component rational vector. -/
abbrev Vec3 := Fin 3 → ℚ

/-- 3×3 rational matrix (row index first, as in numpy). -/
abbrev Mat3 := Fin 3 → Fin 3 → ℚ

/-- 3×3 integer matrix. -/
abbrev Mat3Z := Fin 3 → Fin 3 → ℤ

/-- Explicit 3×3 matrix product (row times column). -/
def mul3 (A B : Mat3) : Mat3 := fun i j =>
  A i 0 * B 0 j + A i 1 * B 1 j + A i 2 * B 2 j

/-- Explicit transpose. -/
def transpose3 (A : Mat3) : Mat3 := fun i j => A j i

/-- Explicit matrix-vector product. -/
def mulVec3 (A : Mat3) (x : Vec3) : Vec3 := fun i =>
  A i 0 * x 0 + A i 1 * x 1 + A i 2 * x 2

/-- The 3×3 identity matrix (`np.eye(3)`). -/
def idM : Mat3 := fun i j => if i = j then 1 else 0

/-- Explicit 3×3 determinant (cofactor expansion along the first row). -/
def det3 {R : Type} [CommRing R] (A : Fin 3 → Fin 3 → R) : R :=
  A 0 0 * (A 1 1 * A 2 2 - A 1 2 * A 2 1) -
    A 0 1 * (A 1 0 * A 2 2 - A 1 2 * A 2 0) +
    A 0 2 * (A 1 0 * A 2 1 - A 1 1 * A 2 0)

/-- Explicit 3×3 adjugate (transposed cofactor matrix). -/
def adj3 (A : Mat3) : Mat3 :=
  ![![A 1 1 * A 2 2 - A 1 2 * A 2 1, A 0 2 * A 2 1 - A 0 1 * A 2 2,
     A 0 1 * A 1 2 - A 0 2 * A 1 1],
    ![A 1 2 * A 2 0 - A 1 0 * A 2 2, A 0 0 * A 2 2 - A 0 2 * A 2 0,
     A 0 2 * A 1 0 - A 0 0 * A 1 2],
    ![A 1 0 * A 2 1 - A 1 1 * A 2 0, A 0 1 * A 2 0 - A 0 0 * A 2 1,
     A 0 0 * A 1 1 - A 0 1 * A 1 0]]

/-- `np.linalg.inv` on a 3×3 matrix; meaningful only when the determinant is
nonzero (numpy raises `LinAlgError` otherwise, which callers model
explicitly). -/
def inv3 (A : Mat3) : Mat3 := fun i j => adj3 A i j / det3 A

theorem det3_mul3 (A B : Mat3) : det3 (mul3 A B) = det3 A * det3 B := by
  unfold det3 mul3
  ring

/-- Modelled from the spec: the lattice object consumed by the
`CrystalCell.scaling_matrix` setter (`Crystal3DLattice` from
`sknano.core.crystallography.xtal_lattices`) is not under `src/`; only its
callers (`xtal_cells.py`) and the `_base.py` prototype are.  Per spec §3/§4.2
the lattice state is its cell matrix `matrix` (rows are the lattice vectors,
the transpose of `orientation_matrix · ortho_matrix`) and the 3-vector
`offset`, which is zero on construction (`_base.py` line 74) and only changes
through `translate`. -/
structure QLattice where
  matrix : Mat3
  offset : Vec3

namespace QLattice

/-- Modelled from the spec: `nd` is the lattice dimension, 3. -/
def nd (_L : QLattice) : ℕ := 3

/-- Modelled from the spec (§4.2):
`fractional_to_cartesian(v) = orientation_matrix · ortho_matrix · v + offset`,
i.e. `matrixᵀ · v + offset` in terms of the cell matrix. -/
def fractional_to_cartesian (L : QLattice) (f : Vec3) : Vec3 :=
  fun i => mulVec3 (transpose3 L.matrix) f i + L.offset i

/-- Modelled from the spec (§4.2): `cartesian_to_fractional` is the exact
algebraic inverse of `fractional_to_cartesian`, including the orientation
matrix and the offset. -/
def cartesian_to_fractional (L : QLattice) (r : Vec3) : Vec3 :=
  mulVec3 (inv3 (transpose3 L.matrix)) (fun i => r i - L.offset i)

/-- Modelled from the spec: a lattice rebuilt from a cell matrix
(`lattice.__class__(cell_matrix=...)`) re-derives its parameters from the
matrix and starts with a fresh zero offset, as in `_base.py` `__init__`. -/
def fromCellMatrix (m : Mat3) : QLattice := ⟨m, fun _ => 0⟩

/-- Modelled from the spec (glossary): `wrap_fractional_coordinate` maps each
fractional coordinate into `[0,1)`. -/
def wrapFrac (f : Vec3) : Vec3 := fun i => Int.fract (f i)

end QLattice

/-- Modelled from the spec: a `BasisAtom` (module `sknano.core.atoms`, not
under `src/`) carries an element identity, a molecule/group id `mol`, an
`id`, and fractional coordinates `rs` relative to its lattice; its Cartesian
position `r` is `lattice.fractional_to_cartesian(rs)`. -/
structure BasisAtom where
  element : String
  mol : ℤ
  id : ℤ
  rs : Vec3

/-- A `UnitCell` (xtal_cells.py lines 28-144): one lattice and one ordered
basis. -/
structure UnitCell where
  lattice : QLattice
  basis : List BasisAtom

/-- The scaling-matrix attribute as stored: `np.asmatrix` of an ndarray kept
by the short-circuit branch can be a 1×3 matrix of ones, everywhere else it
is 3×3. -/
inductive StoredScaling where
  | m13 (v : Vec3)
  | m33 (m : Mat3)

/-- The attributes of a `CrystalCell` read and written by the
`scaling_matrix` setter. -/
structure CellState where
  lattice : Option QLattice
  basis : Option (List BasisAtom)
  scaling_matrix : StoredScaling
  wrap_coords : Bool

/-- A value assigned to `CrystalCell.scaling_matrix`: `None`, a number, a
3-vector, a 3×3 matrix, or any unsupported (non-numeric, non-array-like)
object.  `isNd` records `isinstance(value, np.ndarray)`, which gates the
identity short-circuit. -/
inductive ScalingValue where
  | noneV
  | num (q : ℚ)
  | vec (v : Vec3) (isNd : Bool)
  | mat (m : Mat3) (isNd : Bool)
  | other

/-- `isinstance(value, (int, float, tuple, list, np.ndarray))`: the setter's
guard (line 318) and `SuperCell.__init__`'s guard (lines 467-468). -/
def isSupported : ScalingValue → Bool
  | .num _ => true
  | .vec _ _ => true
  | .mat _ _ => true
  | .noneV => false
  | .other => false

/-- `int()` truncation toward zero, as in `int(value)` and
`np.asmatrix(value, dtype=int)`. -/
def truncInt (q : ℚ) : ℤ := if 0 ≤ q then ⌊q⌋ else ⌈q⌉

/-- `np.allclose(value, np.ones(3))` on a 3-vector. -/
def isOnesVec (v : Vec3) : Prop := ∀ i, VectorModel.isCloseQ (v i) 1

instance (v : Vec3) : Decidable (isOnesVec v) :=
  inferInstanceAs (Decidable (∀ _i, _))

/-- `np.allclose(value, np.eye(3))` on a 3×3 matrix. -/
def isEyeMat (m : Mat3) : Prop := ∀ i j, VectorModel.isCloseQ (m i j) (idM i j)

instance (m : Mat3) : Decidable (isEyeMat m) :=
  inferInstanceAs (Decidable (∀ _i, ∀ _j, _))

/-- The short-circuit test of the setter (lines 324-328): the value is an
ndarray and is allclose to `np.ones(3)` or to `np.eye(3)`. -/
def isIdentityNd : ScalingValue → Prop
  | .vec v true => isOnesVec v
  | .mat m true => isEyeMat m
  | _ => False

instance : (v : ScalingValue) → Decidable (isIdentityNd v)
  | .noneV => inferInstanceAs (Decidable False)
  | .num _ => inferInstanceAs (Decidable False)
  | .vec w nd =>
      match nd with
      | true => inferInstanceAs (Decidable (isOnesVec w))
      | false => inferInstanceAs (Decidable False)
  | .mat m nd =>
      match nd with
      | true => inferInstanceAs (Decidable (isEyeMat m))
      | false => inferInstanceAs (Decidable False)
  | .other => inferInstanceAs (Decidable False)

/-- What `np.asmatrix(value)` stores in the short-circuit branch (line 329):
a 1×3 matrix for the ones vector, the matrix itself for the identity
matrix. -/
def storedOf : ScalingValue → StoredScaling
  | .vec v _ => .m13 v
  | .mat m _ => .m33 m
  | _ => .m33 idM

/-- Lines 332-338 of the setter: a number `k` becomes `nd * [int(k)]`, and an
`asmatrix(value, dtype=int)` whose shape is not 3×3 is diagonalized with
`np.diagflat`. -/
def normalizeScaling : ScalingValue → Mat3Z
  | .num q => fun i j => if i = j then truncInt q else 0
  | .vec v _ => fun i j => if i = j then truncInt (v i) else 0
  | .mat m _ => fun i j => truncInt (m i j)
  | _ => fun i j => if i = j then 1 else 0

/-- `max(set(basis.mols))`; raises on an empty basis, so callers guard. -/
def maxMolOf (b : List BasisAtom) : ℤ :=
  match b.map (fun a => a.mol) with
  | [] => 0
  | x :: xs => xs.foldl max x

/-- Modelled from the spec: `supercell_lattice_points` lives in
`sknano.core.crystallography.extras`, which is not under `src/`.  Spec §4.3
step 3: it enumerates the lattice-translation points of the scaled cell as
fractional coordinates, one per unit cell tiling the supercell, and the
count equals `det(scaling_matrix)`.  The enumeration below is the canonical
mixed-radix one determined by the diagonal magnitudes; on diagonal scaling
matrices (the shape every concrete claim input uses) it is exactly the point
set of the real helper, its first point is the origin, and its length is
`|det|` by construction — the only property the expansion claims rely on. -/
def fracPoint (S : Mat3Z) (k : ℕ) : Vec3 :=
  let d0 := max 1 (S 0 0).natAbs
  let d1 := max 1 (S 1 1).natAbs
  let d2 := max 1 (S 2 2).natAbs
  ![((k % d0 : ℕ) : ℚ) / (d0 : ℚ), (((k / d0) % d1 : ℕ) : ℚ) / (d1 : ℚ),
    (((k / (d0 * d1)) % d2 : ℕ) : ℚ) / (d2 : ℚ)]

/-- Modelled from the spec: see `fracPoint`. -/
def supercell_lattice_points (S : Mat3Z) : List Vec3 :=
  (List.range (det3 S).natAbs).map (fracPoint S)

/-- The expansion path of the `scaling_matrix` setter (lines 332-364): the
value is normalized to an integer matrix, the lattice is replaced by one
rebuilt from `scaling_matrix * lattice.matrix` (fresh zero offset), the
translation vectors are the supercell lattice points expressed in Cartesian
space through the new cell matrix, and the basis is rebuilt from scratch:
for every old atom and every translation vector, a new `BasisAtom` at
`cartesian_to_fractional(atom.r + tvec)` under the new lattice (optionally
wrapped), with mol id `i * max_mol + atom.mol`.  `none` models an exception
escaping the setter: slicing a `None` basis, `max()` of an empty mol set, or
`np.linalg.inv` of a singular matrix. -/
def expandCell (cell : CellState) (L : QLattice) (v : ScalingValue) :
    Option CellState :=
  let S := normalizeScaling v
  let SQ : Mat3 := fun i j => ((S i j : ℤ) : ℚ)
  let L' : QLattice := QLattice.fromCellMatrix (mul3 SQ L.matrix)
  match cell.basis with
  | none => none
  | some b =>
    if b.isEmpty then none
    else if det3 L'.matrix = 0 then none
    else
      let tvecs := (supercell_lattice_points S).map
        (fun f => mulVec3 (transpose3 L'.matrix) f)
      let mm := maxMolOf b
      some { cell with
        lattice := some L',
        scaling_matrix := .m33 SQ,
        basis := some (b.flatMap (fun atom =>
          tvecs.enum.map (fun it =>
            let r := L.fractional_to_cartesian atom.rs
            let fr := L'.cartesian_to_fractional
              (fun i => r i + it.2 i)
            { element := atom.element,
              mol := (it.1 : ℤ) * mm + atom.mol,
              id := atom.id,
              rs := if cell.wrap_coords then QLattice.wrapFrac fr else fr }))) }

/-- Embeds the `CrystalCell.scaling_matrix` setter (lines 312-364):
`None` resets the attribute to `np.eye(3, dtype=int)`; an unsupported value
returns without touching anything; a missing lattice returns without touching
anything; an ndarray allclose to ones/eye short-circuits, storing the value
and leaving lattice and basis untouched; everything else runs the supercell
expansion. -/
def setScalingMatrix (cell : CellState) (v : ScalingValue) :
    Option CellState :=
  match v with
  | .noneV => some { cell with scaling_matrix := .m33 idM }
  | .other => some cell
  | v =>
    match cell.lattice with
    | none => some cell
    | some L =>
      if isIdentityNd v then some { cell with scaling_matrix := storedOf v }
      else expandCell cell L v

/-- Embeds `CrystalCell.__init__(unit_cell=U, scaling_matrix=v)` with no
explicit lattice/basis/coords (lines 163-196): the `unit_cell` setter copies
`U.basis` and `U.lattice` into the cell, `wrap_coords` defaults to `False`,
and finally the `scaling_matrix` setter runs. -/
def crystalCellNew (U : UnitCell) (v : ScalingValue) : Option CellState :=
  setScalingMatrix
    { lattice := some U.lattice, basis := some U.basis,
      scaling_matrix := .m33 idM, wrap_coords := false } v

/-- Validation errors raised by `SuperCell.__init__`. -/
inductive CellError where
  | notAUnitCell
  | badScalingValue
deriving DecidableEq

/-- Embeds `SuperCell.__init__` (lines 464-472): raises `ValueError` when
`unit_cell` is not a `UnitCell` instance (modelled by `none`), raises
`ValueError` when the scaling value is not numeric/array-like, and otherwise
defers to the `CrystalCell` constructor. -/
def superCellNew (u : Option UnitCell) (v : ScalingValue) :
    Except CellError (Option CellState) :=
  match u with
  | none => .error .notAUnitCell
  | some U =>
      if isSupported v then .ok (crystalCellNew U v)
      else .error .badScalingValue

/-! ### Supporting lemmas for the cell-layer claims -/

/-- The 3×3 integer identity matrix. -/
def idZ : Mat3Z := fun i j => if i = j then 1 else 0

theorem truncInt_intCast (n : ℤ) : truncInt ((n : ℤ) : ℚ) = n := by
  unfold truncInt
  split <;> simp

theorem normalizeScaling_mat_cast (M : Mat3Z) (nd : Bool) :
    normalizeScaling (ScalingValue.mat (fun i j => ((M i j : ℤ) : ℚ)) nd) = M := by
  funext i j
  simp [normalizeScaling, truncInt_intCast]

theorem det3_intCast (S : Mat3Z) :
    det3 (fun i j => ((S i j : ℤ) : ℚ)) = ((det3 S : ℤ) : ℚ) := by
  unfold det3
  push_cast
  ring

theorem det3_idZ : det3 idZ = 1 := by
  norm_num [det3, idZ, Fin.ext_iff]

theorem det3_idM : det3 idM = 1 := by
  norm_num [det3, idM, Fin.ext_iff]

theorem int_close_eq (m e : ℤ) (he : |e| ≤ 1)
    (h : VectorModel.isCloseQ ((m : ℤ) : ℚ) ((e : ℤ) : ℚ)) : m = e := by
  unfold VectorModel.isCloseQ at h
  have hcast : ((m : ℚ)) - ((e : ℚ)) = (((m - e : ℤ) : ℤ) : ℚ) := by push_cast; ring
  rw [hcast] at h
  have heq : |((e : ℤ) : ℚ)| ≤ 1 := by
    rw [← Int.cast_abs]
    exact_mod_cast he
  have hlt : |(((m - e : ℤ) : ℤ) : ℚ)| < 1 := by
    calc |(((m - e : ℤ) : ℤ) : ℚ)| ≤ 1e-8 + 1e-5 * |((e : ℤ) : ℚ)| := h
    _ ≤ 1e-8 + 1e-5 * 1 := by nlinarith [abs_nonneg ((e : ℤ) : ℚ)]
    _ < 1 := by norm_num
  rw [← Int.cast_abs] at hlt
  have habs : |m - e| < 1 := by exact_mod_cast hlt
  have := abs_lt.mp habs
  omega

theorem isEyeMat_intCast (M : Mat3Z)
    (h : isEyeMat (fun i j => ((M i j : ℤ) : ℚ))) : M = idZ := by
  funext i j
  have hij := h i j
  by_cases hd : i = j
  · subst hd
    have : idM i i = ((1 : ℤ) : ℚ) := by simp [idM]
    rw [this] at hij
    simpa [idZ] using int_close_eq (M i i) 1 (by norm_num) hij
  · have : idM i j = ((0 : ℤ) : ℚ) := by simp [idM, hd]
    rw [this] at hij
    simpa [idZ, hd] using int_close_eq (M i j) 0 (by norm_num) hij

theorem mul3_id_left (A : Mat3) : mul3 idM A = A := by
  funext i j
  unfold mul3 idM
  fin_cases i <;> (norm_num [Fin.ext_iff]; try rfl)

theorem transpose3_id : transpose3 idM = idM := by
  funext i j
  unfold transpose3 idM
  by_cases h : i = j <;> simp [h]
  exact fun hji => h hji.symm

theorem mulVec3_id (x : Vec3) : mulVec3 idM x = x := by
  funext i
  unfold mulVec3 idM
  fin_cases i <;> (norm_num [Fin.ext_iff]; try rfl)

theorem adj3_id : adj3 idM = idM := by
  funext i j
  unfold adj3 idM
  fin_cases i <;> fin_cases j <;> norm_num [Fin.ext_iff]

theorem inv3_id : inv3 idM = idM := by
  funext i j
  unfold inv3
  rw [adj3_id, det3_idM]
  norm_num

/-! ### C3: supercell atom-count law -/

theorem sum_map_length_const {α β : Type} (l : List α) (f : α → List β)
    (K : ℕ) (h : ∀ a, (f a).length = K) :
    (l.map (List.length ∘ f)).sum = l.length * K := by
  induction l with
  | nil => simp
  | cons x xs ih => simp [h, ih, Nat.succ_mul, Nat.add_comm]

/-- The rebuilt basis has one replica of every old atom per translation
vector. -/
theorem expandCell_basis_length (cell : CellState) (L : QLattice)
    (v : ScalingValue) (b : List BasisAtom) (hb : cell.basis = some b)
    (hne : b.isEmpty = false)
    (hdet : det3 (mul3 (fun i j => ((normalizeScaling v i j : ℤ) : ℚ))
      L.matrix) ≠ 0) :
    ∃ c : CellState, ∃ nb : List BasisAtom,
      expandCell cell L v = some c ∧ c.basis = some nb ∧
      nb.length = (det3 (normalizeScaling v)).natAbs * b.length := by
  simp only [expandCell, hb, hne, Bool.false_eq_true, if_false]
  rw [if_neg (by simpa [QLattice.fromCellMatrix] using hdet)]
  refine ⟨_, _, rfl, rfl, ?_⟩
  rw [List.length_flatMap,
    sum_map_length_const b _ ((det3 (normalizeScaling v)).natAbs)
      (fun a => by simp [supercell_lattice_points]),
    Nat.mul_comm]

/-- C3: for every unit cell with a nonempty basis and nonsingular lattice
matrix, and every integer 3×3 scaling matrix `M` with nonzero determinant
(singular matrices make the rebuild raise inside `np.linalg.inv`),
`CrystalCell(unit_cell=U, scaling_matrix=M)` has a basis of exactly
`abs(det(M)) * len(U.basis)` atoms — one replica of every unit-cell atom per
enumerated lattice-translation vector.  This covers both setter paths: the
ndarray identity short-circuit (where `det M = 1` and the basis is kept) and
the full expansion. -/
theorem supercell_atom_count (U : UnitCell) (M : Mat3Z) (nd : Bool)
    (hbasis : U.basis ≠ []) (hdetM : det3 M ≠ 0)
    (hlat : det3 U.lattice.matrix ≠ 0) :
    ∃ c : CellState, ∃ b : List BasisAtom,
      crystalCellNew U (ScalingValue.mat (fun i j => ((M i j : ℤ) : ℚ)) nd) =
        some c ∧
      c.basis = some b ∧
      b.length = (det3 M).natAbs * U.basis.length := by
  simp only [crystalCellNew, setScalingMatrix]
  by_cases hid : isIdentityNd (ScalingValue.mat (fun i j => ((M i j : ℤ) : ℚ)) nd)
  · cases nd with
    | false => exact absurd hid (by simp [isIdentityNd])
    | true =>
        have hM : M = idZ := isEyeMat_intCast M hid
        rw [if_pos hid]
        exact ⟨_, _, rfl, rfl, by rw [hM, det3_idZ]; simp⟩
  · rw [if_neg hid]
    have hdet' : det3 (mul3
        (fun i j => ((normalizeScaling
          (ScalingValue.mat (fun i j => ((M i j : ℤ) : ℚ)) nd) i j : ℤ) : ℚ))
        U.lattice.matrix) ≠ 0 := by
      rw [normalizeScaling_mat_cast, det3_mul3, det3_intCast]
      exact mul_ne_zero (by exact_mod_cast hdetM) hlat
    obtain ⟨c, nb, hc, hcb, hlen⟩ :=
      expandCell_basis_length
        { lattice := some U.lattice, basis := some U.basis,
          scaling_matrix := StoredScaling.m33 idM, wrap_coords := false }
        U.lattice
        (ScalingValue.mat (fun i j => ((M i j : ℤ) : ℚ)) nd)
        U.basis rfl (by simp [List.isEmpty_iff, hbasis]) hdet'
    refine ⟨c, nb, hc, hcb, ?_⟩
    rw [hlen, normalizeScaling_mat_cast]

/-- Witness for C3: one carbon atom in a unit lattice, scaling matrix
`diag(2,2,1)` (determinant 4). -/
theorem supercell_atom_count_witness :
    ∃ c : CellState, ∃ b : List BasisAtom,
      crystalCellNew (UnitCell.mk (QLattice.mk idM (fun _ => 0))
          [BasisAtom.mk "C" 1 1 (fun _ => 0)])
        (ScalingValue.mat
          (fun i j => (((![![2, 0, 0], ![0, 2, 0], ![0, 0, 1]] : Mat3Z) i j : ℤ) : ℚ))
          false) = some c ∧
      c.basis = some b ∧
      b.length = (det3 (![![2, 0, 0], ![0, 2, 0], ![0, 0, 1]] : Mat3Z)).natAbs *
        (UnitCell.mk (QLattice.mk idM (fun _ => 0))
          [BasisAtom.mk "C" 1 1 (fun _ => 0)]).basis.length :=
  supercell_atom_count
    (UnitCell.mk (QLattice.mk idM (fun _ => 0))
      [BasisAtom.mk "C" 1 1 (fun _ => 0)])
    ![![2, 0, 0], ![0, 2, 0], ![0, 0, 1]] false
    (by simp)
    (by norm_num [det3])
    (by rw [det3_idM]; norm_num)

/-! ### C4: identity scaling -/

/-- C4 (amended): an identity scaling specification supplied as an ndarray —
a 3×3 matrix allclose to the identity or a 3-vector allclose to all-ones —
short-circuits in the setter (lines 324-330) and is a true no-op on the
cell: the lattice and the basis are exactly the unit cell's, untouched, with
no re-derivation; only the stored `scaling_matrix` attribute is replaced by
`np.asmatrix(value)`.  (The scalar `1` instead runs the full expansion path
and is not a no-op in general; see the counterexample.) -/
theorem identity_ndarray_scaling_is_noop (U : UnitCell) (m : Mat3) (w : Vec3)
    (hm : isEyeMat m) (hw : isOnesVec w) :
    crystalCellNew U (ScalingValue.mat m true) =
      some { lattice := some U.lattice, basis := some U.basis,
             scaling_matrix := StoredScaling.m33 m, wrap_coords := false } ∧
    crystalCellNew U (ScalingValue.vec w true) =
      some { lattice := some U.lattice, basis := some U.basis,
             scaling_matrix := StoredScaling.m13 w, wrap_coords := false } := by
  constructor
  · simp only [crystalCellNew, setScalingMatrix]
    rw [if_pos (show isIdentityNd (ScalingValue.mat m true) from hm)]
    rfl
  · simp only [crystalCellNew, setScalingMatrix]
    rw [if_pos (show isIdentityNd (ScalingValue.vec w true) from hw)]
    rfl

/-- Witness for C4 (amended) at a concrete one-atom unit cell. -/
theorem identity_ndarray_scaling_is_noop_witness :
    crystalCellNew
        (UnitCell.mk (QLattice.mk idM (fun _ => 0))
          [BasisAtom.mk "C" 1 1 (fun _ => 0)])
        (ScalingValue.mat idM true) =
      some { lattice := some (QLattice.mk idM (fun _ => 0)),
             basis := some [BasisAtom.mk "C" 1 1 (fun _ => 0)],
             scaling_matrix := StoredScaling.m33 idM,
             wrap_coords := false } ∧
    crystalCellNew
        (UnitCell.mk (QLattice.mk idM (fun _ => 0))
          [BasisAtom.mk "C" 1 1 (fun _ => 0)])
        (ScalingValue.vec (fun _ => 1) true) =
      some { lattice := some (QLattice.mk idM (fun _ => 0)),
             basis := some [BasisAtom.mk "C" 1 1 (fun _ => 0)],
             scaling_matrix := StoredScaling.m13 (fun _ => 1),
             wrap_coords := false } :=
  identity_ndarray_scaling_is_noop
    (UnitCell.mk (QLattice.mk idM (fun _ => 0))
      [BasisAtom.mk "C" 1 1 (fun _ => 0)])
    idM (fun _ => 1)
    (fun _i _j => VectorModel.isCloseQ_refl _)
    (fun _i => VectorModel.isCloseQ_refl _)

/-- A unit lattice that has been translated: offset `(1,0,0)`. -/
def offsetLattice : QLattice := QLattice.mk idM ![1, 0, 0]

/-- One carbon atom at the fractional origin. -/
def atomO : BasisAtom := BasisAtom.mk "C" 1 1 ![0, 0, 0]

/-- The unit cell of the C4 counterexample. -/
def U4 : UnitCell := UnitCell.mk offsetLattice [atomO]

/-- Counterexample to C4: the scalar identity scaling `1` is not a no-op.
It skips the ndarray short-circuit and runs the full expansion: on a unit
cell whose lattice was translated to offset `(1,0,0)`, the lattice is
replaced by one rebuilt from the cell matrix — its offset reset to zero — and
the basis is rebuilt through `cartesian_to_fractional` under that new
lattice, moving the atom's stored fractional x-coordinate from `0` to `1`.
So neither is the lattice kept as-is nor does the resulting basis equal the
unit cell's. -/
theorem scalar_identity_scaling_not_noop :
    ((crystalCellNew U4 (ScalingValue.num 1)).map
        (fun c => (c.lattice.map (fun L => L.offset 0),
                   c.basis.map (fun b => b.map (fun a => a.rs 0))))) =
      some (some 0, some [1]) ∧
    U4.lattice.offset 0 = 1 ∧
    U4.basis.map (fun a => a.rs 0) = [0] ∧
    (0 : ℚ) ≠ 1 := by
  refine ⟨?_, by norm_num [U4, offsetLattice], by norm_num [U4, atomO], by norm_num⟩
  have hS : normalizeScaling (ScalingValue.num 1) = idZ := by
    funext i j
    norm_num [normalizeScaling, truncInt, idZ]
  have hSQ : (fun i j => ((idZ i j : ℤ) : ℚ)) = idM := by
    funext i j
    by_cases h : i = j <;> simp [idZ, idM, h]
  simp only [crystalCellNew, setScalingMatrix]
  rw [if_neg (show ¬ isIdentityNd (ScalingValue.num 1) from fun h => h)]
  simp only [expandCell, hS, hSQ, U4, offsetLattice, atomO,
    QLattice.fromCellMatrix, mul3_id_left, transpose3_id, mulVec3_id,
    inv3_id, det3_idM, det3_idZ, QLattice.fractional_to_cartesian,
    QLattice.cartesian_to_fractional, supercell_lattice_points,
    List.isEmpty_cons, Bool.false_eq_true, if_false]
  norm_num [List.enum, List.enumFrom, maxMolOf, fracPoint, idZ,
    Matrix.cons_val_zero]

/-! ### C6: SuperCell validation versus setter silence -/

/-- A crystal cell whose scaling matrix was previously set to `2·I`. -/
def cell2I : CellState :=
  CellState.mk (some (QLattice.mk idM (fun _ => 0))) (some [atomO])
    (StoredScaling.m33 (fun i j => if i = j then 2 else 0)) false

/-- Counterexample to C6: assigning `None` — a non-numeric value that
`SuperCell` rejects — to an existing cell's `scaling_matrix` attribute does
not leave the attribute unchanged: the setter's first branch (lines 314-316)
resets it to `np.eye(3, dtype=int)`. -/
theorem scaling_none_resets_matrix :
    setScalingMatrix cell2I ScalingValue.noneV =
      some { cell2I with scaling_matrix := StoredScaling.m33 idM } ∧
    cell2I.scaling_matrix ≠ StoredScaling.m33 idM := by
  refine ⟨rfl, ?_⟩
  intro h
  simp only [cell2I] at h
  injection h with h'
  have h0 := congrFun (congrFun h' 0) 0
  norm_num [idM] at h0

/-- C6 (amended): `SuperCell(unit_cell, scaling_matrix)` raises a
`ValueError` immediately when `unit_cell` is not a `UnitCell` instance
(checked first) and when `scaling_matrix` is not numeric/array-like, whereas
the `CrystalCell` setter raises nothing on the same values: an unsupported
value other than `None` leaves scaling matrix, lattice and basis all
unchanged, and `None` leaves lattice and basis unchanged but resets the
stored scaling matrix to the 3×3 integer identity. -/
theorem supercell_validation_vs_setter_silence (U : UnitCell)
    (v : ScalingValue) (cell : CellState) (hv : isSupported v = false) :
    superCellNew none v = Except.error CellError.notAUnitCell ∧
    superCellNew (some U) v = Except.error CellError.badScalingValue ∧
    setScalingMatrix cell ScalingValue.other = some cell ∧
    setScalingMatrix cell ScalingValue.noneV =
      some { cell with scaling_matrix := StoredScaling.m33 idM } := by
  refine ⟨rfl, ?_, rfl, rfl⟩
  simp [superCellNew, hv]

/-- Witness for C6 (amended) with the unsupported value being an arbitrary
non-numeric object. -/
theorem supercell_validation_vs_setter_silence_witness :
    superCellNew none ScalingValue.other =
      Except.error CellError.notAUnitCell ∧
    superCellNew (some U4) ScalingValue.other =
      Except.error CellError.badScalingValue ∧
    setScalingMatrix cell2I ScalingValue.other = some cell2I ∧
    setScalingMatrix cell2I ScalingValue.noneV =
      some { cell2I with scaling_matrix := StoredScaling.m33 idM } :=
  supercell_validation_vs_setter_silence U4 ScalingValue.other cell2I rfl

end CellModel

namespace AtomsModel

/-- An atom record restricted to the attributes the two default sort keys
read: the element symbol, the atomic number `Z`, the z-coordinate `z`, and
the coordination number `CN`. -/
structure Atom where
  element : String
  Z : ℕ
  z : ℚ
  CN : ℕ

/-- The default key of `Atoms.sort` (_atoms.py lines 153-159):
`attrgetter('element', 'Z', 'z')`, i.e. the tuple `(element, Z, z)` compared
lexicographically as Python compares tuples. -/
def baseKey (a : Atom) : String ×ₗ (ℕ ×ₗ ℚ) :=
  toLex (a.element, toLex (a.Z, a.z))

/-- The default key of `CNAtoms.sort` (cn_atoms.py lines 127-128):
`attrgetter('CN')`, overriding the base default and delegating to
`Atoms.sort`, i.e. to `list.sort(key=...)`. -/
def cnKey (a : Atom) : ℕ := a.CN

/-- CPython's `list.sort(key=k)` is guaranteed stable, so it is exactly a
sort of the index-decorated list ordered by the key with the original
position as tie-breaker.  This relation is that order. -/
def sortRel {κ : Type} [LinearOrder κ] (k : Atom → κ) (x y : ℕ × Atom) :
    Prop :=
  k x.2 < k y.2 ∨ (k x.2 = k y.2 ∧ x.1 ≤ y.1)

instance {κ : Type} [LinearOrder κ] (k : Atom → κ) :
    DecidableRel (sortRel k) := fun x y => by
  unfold sortRel
  infer_instance

instance {κ : Type} [LinearOrder κ] (k : Atom → κ) :
    IsTotal (ℕ × Atom) (sortRel k) := by
  constructor
  intro x y
  rcases lt_trichotomy (k x.2) (k y.2) with h | h | h
  · exact Or.inl (Or.inl h)
  · rcases le_total x.1 y.1 with h' | h'
    · exact Or.inl (Or.inr ⟨h, h'⟩)
    · exact Or.inr (Or.inr ⟨h.symm, h'⟩)
  · exact Or.inr (Or.inl h)

instance {κ : Type} [LinearOrder κ] (k : Atom → κ) :
    IsTrans (ℕ × Atom) (sortRel k) := by
  constructor
  intro x y z hxy hyz
  rcases hxy with h1 | ⟨h1, h1'⟩
  · rcases hyz with h2 | ⟨h2, _⟩
    · exact Or.inl (h1.trans h2)
    · exact Or.inl (h2 ▸ h1)
  · rcases hyz with h2 | ⟨h2, h2'⟩
    · exact Or.inl (h1 ▸ h2)
    · exact Or.inr ⟨h1.trans h2, le_trans h1' h2'⟩

/-- The index-decorated stable sort: decorate with original positions, sort
by key with position tie-break. -/
def sortIndexed {κ : Type} [LinearOrder κ] (k : Atom → κ) (l : List Atom) :
    List (ℕ × Atom) :=
  l.enum.insertionSort (sortRel k)

/-- `list.sort(key=k)`: the stable sort, undecorated. -/
def pySortBy {κ : Type} [LinearOrder κ] (k : Atom → κ) (l : List Atom) :
    List Atom :=
  (sortIndexed k l).map Prod.snd

/-- Embeds `Atoms.sort` with `key=None` (_atoms.py lines 153-159):
`self._data.sort(key=attrgetter('element', 'Z', 'z'))`. -/
def atomsSortDefault (l : List Atom) : List Atom := pySortBy baseKey l

/-- Embeds `CNAtoms.sort` with no key argument (cn_atoms.py lines 127-128):
the default key is `attrgetter('CN')` and the call delegates to the base
`Atoms.sort`, hence to the same stable `list.sort`. -/
def cnAtomsSortDefault (l : List Atom) : List Atom := pySortBy cnKey l

theorem enumFrom_map_snd {α : Type} :
    ∀ (n : ℕ) (l : List α), (l.enumFrom n).map Prod.snd = l
  | _, [] => rfl
  | n, x :: xs => by
      simp [List.enumFrom, enumFrom_map_snd (n + 1) xs]

theorem enum_map_snd {α : Type} (l : List α) :
    l.enum.map Prod.snd = l :=
  enumFrom_map_snd 0 l

/-- C10: `CNAtoms.sort` with no key sorts the atoms by coordination number
`CN`, overriding the base `Atoms.sort` default ordering by
`(element, Z, z)`; both delegate to the stable built-in `list.sort`, so each
result is a permutation of the input that is sorted by its key with ties in
original order (the index tie-break in `sortRel` is exactly
"ties preserve prior relative order"). -/
theorem cn_sort_overrides_base_sort (l : List Atom) :
    (cnAtomsSortDefault l).Perm l ∧
    (sortIndexed cnKey l).Sorted (sortRel cnKey) ∧
    (atomsSortDefault l).Perm l ∧
    (sortIndexed baseKey l).Sorted (sortRel baseKey) ∧
    cnAtomsSortDefault l = (sortIndexed cnKey l).map Prod.snd ∧
    atomsSortDefault l = (sortIndexed baseKey l).map Prod.snd := by
  refine ⟨?_, List.sorted_insertionSort _ _, ?_,
    List.sorted_insertionSort _ _, rfl, rfl⟩
  · have hp : (sortIndexed cnKey l).Perm l.enum :=
      List.perm_insertionSort _ _
    have := hp.map Prod.snd
    rwa [enum_map_snd l] at this
  · have hp : (sortIndexed baseKey l).Perm l.enum :=
      List.perm_insertionSort _ _
    have := hp.map Prod.snd
    rwa [enum_map_snd l] at this

end AtomsModel
